import Mathlib

/-!
A shallow embedding of a Terraform review/creation agent (Python sources
`agent/config.py`, `agent/tools.py`, `agent/orchestrator.py`, `agent/main.py`),
together with theorems about its allowlisting, command construction, evidence
aggregation, JSON-block extraction and slug normalisation.

Pure string processing is translated directly at the character-list level.
Process execution and the filesystem are modelled by explicit parameters
(a `which` predicate for binary resolution on PATH, a runner function from an
argv to its outcome, file-metadata records for glob results) and by an explicit
list of side effects (spawned processes, file writes) returned alongside each
result.  A Python exception escaping a function is modelled with `Except.error`;
an exception caught inside the function never surfaces.
-/

namespace TfAgent

/-! ### Python string primitives -/

/-- The six ASCII whitespace characters recognised by Python's `str.strip()`
and `str.split()` (unicode whitespace is not modelled). -/
def isPySpace (c : Char) : Bool :=
  c = ' ' || c = '\t' || c = '\n' || c = '\r' || c = '\x0b' || c = '\x0c'

/-- Python `str.strip()` on a character list. -/
def pyStrip (cs : List Char) : List Char :=
  ((cs.dropWhile isPySpace).reverse.dropWhile isPySpace).reverse

/-- Helper for Python `str.split()` with no separator: split on whitespace
runs, dropping empty pieces.  `acc` holds the current piece reversed. -/
def splitWsAux : List Char → List Char → List (List Char)
  | [], [] => []
  | [], acc => [acc.reverse]
  | c :: rest, acc =>
    if isPySpace c then
      if acc.isEmpty then splitWsAux rest []
      else acc.reverse :: splitWsAux rest []
    else splitWsAux rest (c :: acc)

/-- Python `s.split()` (whitespace split, empty pieces dropped). -/
def pySplitWs (s : String) : List String :=
  (splitWsAux s.data []).map fun cs => String.mk cs

/-- Helper for Python `s.split(",")`: split on commas, keeping empty pieces. -/
def splitCommaAux : List Char → List Char → List (List Char)
  | [], acc => [acc.reverse]
  | c :: rest, acc =>
    if c = ',' then acc.reverse :: splitCommaAux rest []
    else splitCommaAux rest (c :: acc)

/-- Python `s.split(",")` on a character list. -/
def pySplitComma (s : String) : List (List Char) :=
  splitCommaAux s.data []

/-- Python `" ".join(parts)`. -/
def joinSpace (parts : List String) : String :=
  String.intercalate " " parts

/-- String prefix test, computed on the character lists. -/
def strStartsWith (s pre : String) : Bool :=
  pre.data.isPrefixOf s.data

/-- String suffix test, computed on the character lists. -/
def strEndsWith (s suf : String) : Bool :=
  suf.data.reverse.isPrefixOf s.data.reverse

/-- Python `os.path.join(a, b)` for two components (posix rules). -/
def osPathJoin (a b : String) : String :=
  if strStartsWith b "/" then b
  else if a = "" || strEndsWith a "/" then a ++ b
  else a ++ "/" ++ b

/-- Validity of the digit part accepted by Python `int()`: a nonempty run of
ASCII digits in which a single underscore may appear between two digits. -/
def validDigits : List Char → Bool
  | [] => false
  | [c] => c.isDigit
  | c :: '_' :: cs => c.isDigit && validDigits cs
  | c :: d :: cs => c.isDigit && validDigits (d :: cs)

/-- Numeric value of a digit run, ignoring underscores. -/
def digitsNat (cs : List Char) : Nat :=
  (cs.filter (fun c => c ≠ '_')).foldl (fun n c => n * 10 + (c.toNat - 48)) 0

/-- Python `int(s)` for ASCII decimal strings: strip whitespace, optional
sign, digits (underscore separators allowed); `none` models `ValueError`. -/
def parsePyInt (s : String) : Option Int :=
  match pyStrip s.data with
  | '+' :: ds => if validDigits ds then some (digitsNat ds) else none
  | '-' :: ds => if validDigits ds then some (-(digitsNat ds : Int)) else none
  | ds => if validDigits ds then some (digitsNat ds) else none

/-! ### `agent/config.py` -/

/-- The process environment: `getenv` returns the variable's value, or `none`
when the variable is unset. -/
structure SysEnv where
  getenv : String → Option String

/-- `get_workdir`: `os.getenv("TERRAFORM_WORKDIR", default)`. -/
def get_workdir (env : SysEnv) (default : String := "..") : String :=
  (env.getenv "TERRAFORM_WORKDIR").getD default

/-- `get_tools_allowlist`: `None` (all tools allowed) when the variable is
unset or empty, otherwise the comma-separated entries, stripped, with empty
entries dropped. -/
def get_tools_allowlist (env : SysEnv) : Option (List String) :=
  match env.getenv "TOOLS_ALLOWLIST" with
  | none => none
  | some raw =>
    if raw = "" then none
    else some ((((pySplitComma raw).map pyStrip).filter
      (fun cs => cs ≠ [])).map fun cs => String.mk cs)

/-- `get_tools_timeout_seconds`: `int(os.getenv("TOOLS_TIMEOUT_SECONDS",
"120"))`, falling back to `120` on `ValueError`. -/
def get_tools_timeout_seconds (env : SysEnv) : Int :=
  match parsePyInt ((env.getenv "TOOLS_TIMEOUT_SECONDS").getD "120") with
  | some n => n
  | none => 120

/-- `is_tool_allowed`: true iff the allowlist is absent or contains the name. -/
def is_tool_allowed (env : SysEnv) (tool_name : String) : Bool :=
  match get_tools_allowlist env with
  | none => true
  | some allow => allow.contains tool_name

/-! ### `agent/tools.py` -/

/-- Outcome of `_run` for one spawned process: a completed process with its
exit code and captured streams, or a timeout (`subprocess.TimeoutExpired`,
after which `_run` kills the child and raises `ToolError`). -/
inductive RunOutcome
  | completed (exitCode : Int) (stdout stderr : String)
  | timedOut
deriving DecidableEq

/-- Observable side effect of a gateway operation: spawning a process with a
given argv, or writing a file.  (The working directory and timeout passed to
`subprocess.Popen`, and directory creation, are not tracked.) -/
inductive Effect
  | spawn (argv : List String)
  | fsWrite (path : String) (content : String)
deriving DecidableEq

/-- The result dictionaries the five tool operations return. -/
inductive ToolResult
  /-- `{"ok": False, "error": msg}` -/
  | err (msg : String)
  /-- `{"ok": ok, "exit_code": code, "stdout": out, "stderr": err}` -/
  | run (ok : Bool) (exitCode : Int) (stdout stderr : String)
  /-- `{"ok": ok, "tool": tool, "exit_code": code, "stdout": out, "stderr": err}` -/
  | runTool (ok : Bool) (tool : String) (exitCode : Int) (stdout stderr : String)
  /-- `{"ok": True, "files": files}` -/
  | filesOk (files : List (String × String))
  /-- `{"ok": True, "path": path}` -/
  | pathOk (path : String)
deriving DecidableEq

/-- The closed set of terraform subcommands `run_terraform` accepts. -/
def safeSubs : List String := ["init", "validate", "plan", "show", "version"]

/-- `run_terraform`: allowlist gate, binary check, subcommand filter, fixed
flag injection, then one spawned process whose outcome determines `ok`.
`which` models `shutil.which`; `runner` maps the spawned argv to its outcome.
A caught `ToolError` (including a timeout) becomes an error dictionary; no
exception escapes, so the first component is always `Except.ok`. -/
def run_terraform (env : SysEnv) (which : String → Bool)
    (runner : List String → RunOutcome) (cmd : String) :
    Except String ToolResult × List Effect :=
  if ¬ is_tool_allowed env "run_terraform" then
    (.ok (.err "Tool not allowed: run_terraform"), [])
  else if ¬ which "terraform" then
    (.ok (.err "Binary not found on PATH: terraform"), [])
  else
    match pySplitWs cmd with
    | [] => (.ok (.err "Empty terraform command"), [])
    | sub :: rest =>
      if ¬ safeSubs.contains sub then
        (.ok (.err ("Disallowed terraform subcommand: " ++ sub)), [])
      else
        let argv :=
          if sub = "init" then ["terraform", "init", "-input=false"] ++ rest
          else if sub = "plan" then
            ["terraform", "plan", "-input=false", "-no-color"] ++ rest
          else if sub = "show" then ["terraform", "show", "-no-color"] ++ rest
          else if sub = "validate" then
            ["terraform", "validate", "-no-color"] ++ rest
          else ["terraform"] ++ sub :: rest
        match runner argv with
        | .timedOut =>
          (.ok (.err ("Command timed out: " ++ joinSpace argv)), [.spawn argv])
        | .completed code out errOut =>
          (.ok (.run (code == 0) code out errOut), [.spawn argv])

/-- Argv used when the primary scanner is invoked. -/
def tfsecArgv : List String := ["tfsec", "--format", "json", "--no-color", "."]

/-- Argv used when the fallback scanner is invoked. -/
def checkovArgv : List String := ["checkov", "-d", ".", "--output", "json"]

/-- `run_security_scan`: tfsec if resolvable, else checkov, else a reported
failure.  Exit codes 0 and 1 both count as `ok`.  A timeout here is not
caught, so it surfaces as `Except.error`. -/
def run_security_scan (env : SysEnv) (which : String → Bool)
    (runner : List String → RunOutcome) :
    Except String ToolResult × List Effect :=
  if ¬ is_tool_allowed env "run_security_scan" then
    (.ok (.err "Tool not allowed: run_security_scan"), [])
  else if which "tfsec" then
    match runner tfsecArgv with
    | .timedOut =>
      (.error ("Command timed out: " ++ joinSpace tfsecArgv), [.spawn tfsecArgv])
    | .completed code out errOut =>
      (.ok (.runTool (code == 0 || code == 1) "tfsec" code out errOut),
        [.spawn tfsecArgv])
  else if which "checkov" then
    match runner checkovArgv with
    | .timedOut =>
      (.error ("Command timed out: " ++ joinSpace checkovArgv),
        [.spawn checkovArgv])
    | .completed code out errOut =>
      (.ok (.runTool (code == 0 || code == 1) "checkov" code out errOut),
        [.spawn checkovArgv])
  else
    (.ok (.err "Neither tfsec nor checkov found on PATH"), [])

/-- Argv used by `run_infracost`. -/
def infracostArgv : List String :=
  ["infracost", "breakdown", "--path", ".", "--format", "json", "--no-color"]

/-- `run_infracost`: requires the binary; `ok` strictly requires exit code 0.
A timeout is not caught. -/
def run_infracost (env : SysEnv) (which : String → Bool)
    (runner : List String → RunOutcome) :
    Except String ToolResult × List Effect :=
  if ¬ is_tool_allowed env "run_infracost" then
    (.ok (.err "Tool not allowed: run_infracost"), [])
  else if ¬ which "infracost" then
    (.ok (.err "Infracost not found on PATH"), [])
  else
    match runner infracostArgv with
    | .timedOut =>
      (.error ("Command timed out: " ++ joinSpace infracostArgv),
        [.spawn infracostArgv])
    | .completed code out errOut =>
      (.ok (.run (code == 0) code out errOut), [.spawn infracostArgv])

/-- One glob match as `read_repo_files` observes it: its path relative to the
working directory, whether it is a directory, the result of `os.path.getsize`
(`Except.error` models a raised `OSError`), and the result of opening and
reading it in text mode.  The decoded stream is a list in which `none` marks a
byte sequence that does not decode: since the file is opened with
`errors="ignore"`, such positions are silently dropped rather than raising. -/
structure FileInfo where
  rel : String
  isDir : Bool
  size : Except String Nat
  content : Except String (List (Option Char))

/-- Decoding with `errors="ignore"`: undecodable positions are dropped. -/
def decodeIgnore (l : List (Option Char)) : String :=
  String.mk (l.filterMap id)

/-- Strict decoding succeeds only when every position decodes; `false` means
the file "cannot be decoded as text". -/
def decodableStrict (l : List (Option Char)) : Bool :=
  l.all (fun o => o.isSome)

/-- Python dict assignment `d[k] = v` on an insertion-ordered assoc list. -/
def dictInsert (d : List (String × String)) (k v : String) :
    List (String × String) :=
  if d.any (fun kv => kv.1 = k) then
    d.map (fun kv => if kv.1 = k then (k, v) else kv)
  else d ++ [(k, v)]

/-- Per-file body of the `read_repo_files` loop: skip directories, skip files
whose size query raises, skip files over 1,000,000 bytes, skip files whose
open/read raises; otherwise record the decoded content under the relative
path. -/
def readFileStep (files : List (String × String)) (f : FileInfo) :
    List (String × String) :=
  if f.isDir then files
  else
    match f.size with
    | .error _ => files
    | .ok n =>
      if n > 1000000 then files
      else
        match f.content with
        | .error _ => files
        | .ok raw => dictInsert files f.rel (decodeIgnore raw)

/-- `read_repo_files` over the list of glob globMatches.  The outer
`try`/`except` means no exception escapes.  (Glob expansion itself is the
`globMatches` parameter; a top-level enumeration error, which would produce an
overall error dictionary, is not modelled.) -/
def read_repo_files (env : SysEnv) (globMatches : List FileInfo) :
    Except String ToolResult × List Effect :=
  if ¬ is_tool_allowed env "read_repo_files" then
    (.ok (.err "Tool not allowed: read_repo_files"), [])
  else
    (.ok (.filesOk (globMatches.foldl readFileStep [])), [])

/-- `write_report`: writes the markdown to `<workdir>/report.md`, overwriting;
`cwd` stands for `os.path.abspath(get_workdir())` and `writeOutcome` for the
result of the `open`/`write` call.  Exceptions are caught. -/
def write_report (env : SysEnv) (cwd : String)
    (writeOutcome : Except String Unit) (markdown : String) :
    Except String ToolResult × List Effect :=
  if ¬ is_tool_allowed env "write_report" then
    (.ok (.err "Tool not allowed: write_report"), [])
  else
    let out_path := osPathJoin cwd "report.md"
    match writeOutcome with
    | .ok _ => (.ok (.pathOk out_path), [.fsWrite out_path markdown])
    | .error e => (.ok (.err e), [])

/-! ### `agent/orchestrator.py` — review flow -/

/-- `res.get("ok")` truthiness for the dictionaries above. -/
def resOk : ToolResult → Bool
  | .err _ => false
  | .run ok _ _ _ => ok
  | .runTool ok _ _ _ _ => ok
  | .filesOk _ => true
  | .pathOk _ => true

/-- `res.get("stdout", "")`. -/
def resStdout : ToolResult → String
  | .run _ _ out _ => out
  | .runTool _ _ _ out _ => out
  | _ => ""

/-- `res.get("error", "")`. -/
def resError : ToolResult → String
  | .err msg => msg
  | _ => ""

/-- `res.get("tool", "unknown")`. -/
def resTool : ToolResult → String
  | .runTool _ tool _ _ _ => tool
  | _ => "unknown"

/-- `res.get("files", \x7b\x7d)`. -/
def resFiles : ToolResult → List (String × String)
  | .filesOk files => files
  | _ => []

/-- `_safe(val)`: `val.get("stdout") or val.get("error") or ""`.  On the
dictionary shapes actually produced this is the stdout of a dictionary that
has one and the error of an error dictionary (Python's `or` falls through
empty strings, but the fallback value is then `""` as well). -/
def safeVal : ToolResult → String
  | .err msg => msg
  | .run _ _ out _ => out
  | .runTool _ _ _ out _ => out
  | .filesOk _ => ""
  | .pathOk _ => ""

/-- Label of one evidence-bundle fragment. -/
inductive FragTag
  | file (rel : String)
  | filesError
  | init
  | validate
  | planJson
  | planText
  | secOk (tool : String)
  | secErr
  | costOk
  | costErr
deriving DecidableEq

/-- One labelled text fragment of the evidence bundle. -/
structure Fragment where
  tag : FragTag
  body : String
deriving DecidableEq

/-- The exact text the source interpolates for each fragment. -/
def Fragment.render : Fragment → String
  | ⟨.file rel, body⟩ => "File: " ++ rel ++ "\n```hcl\n" ++ body ++ "\n```"
  | ⟨.filesError, body⟩ => "Could not read files: " ++ body
  | ⟨.init, body⟩ => "Terraform init:\n```\n" ++ body ++ "\n```"
  | ⟨.validate, body⟩ => "Terraform validate:\n```\n" ++ body ++ "\n```"
  | ⟨.planJson, body⟩ => "Terraform plan (JSON):\n```json\n" ++ body ++ "\n```"
  | ⟨.planText, body⟩ => "Terraform plan (text):\n```\n" ++ body ++ "\n```"
  | ⟨.secOk tool, body⟩ =>
    "Security scan (" ++ tool ++ "):\n```json\n" ++ body ++ "\n```"
  | ⟨.secErr, body⟩ => "Security scan unavailable: " ++ body
  | ⟨.costOk, body⟩ => "Infracost:\n```json\n" ++ body ++ "\n```"
  | ⟨.costErr, body⟩ => "Infracost unavailable: " ++ body

/-- The evidence bundle `run_review_flow` assembles from the step results, in
source order: files (one fragment per file on success, one error fragment on
failure), init, validate, exactly one of the two plan-show variants, security,
cost.  `tf_plan`'s own result is not folded in by the source; its output
reaches the bundle only through the `show` step. -/
def reviewParts (files_res tf_init tf_validate tf_show_json tf_show_text
    sec cost : ToolResult) : List Fragment :=
  (if resOk files_res then
    (resFiles files_res).map fun rc => ⟨.file rc.1, rc.2⟩
  else [⟨.filesError, resError files_res⟩])
  ++ [⟨.init, safeVal tf_init⟩, ⟨.validate, safeVal tf_validate⟩]
  ++ [if resOk tf_show_json then ⟨.planJson, resStdout tf_show_json⟩
      else ⟨.planText, safeVal tf_show_text⟩]
  ++ [if resOk sec then ⟨.secOk (resTool sec), resStdout sec⟩
      else ⟨.secErr, resError sec⟩]
  ++ [if resOk cost then ⟨.costOk, resStdout cost⟩
      else ⟨.costErr, resError cost⟩]

/-- Sequencing of one gateway step inside a pipeline: effects observed so far
are kept, an uncaught exception aborts the rest. -/
def andThenR (step : Except String ToolResult × List Effect)
    (k : ToolResult → Except String String × List Effect) :
    Except String String × List Effect :=
  match step with
  | (.ok r, eff) => let next := k r; (next.1, eff ++ next.2)
  | (.error e, eff) => (.error e, eff)

/-- `run_review_flow`: model configuration is validated first (`RuntimeError`
when `GEMINI_API_KEY` is unset or empty, before any tool runs), then the
seven tool steps run in fixed order, the bundle is handed to the model
capability (`generate`), and the returned text is persisted via
`write_report` (whose result is discarded) and returned.  The text-show step
runs only when the JSON show was not ok; otherwise the source substitutes the
stub dictionary `{"ok": True, "stdout": ""}` (modelled as an ok run result
with empty output). -/
def run_review_flow (env : SysEnv) (which : String → Bool)
    (runner : List String → RunOutcome) (globMatches : List FileInfo)
    (generate : List Fragment → String) (writeOutcome : Except String Unit) :
    Except String String × List Effect :=
  if (env.getenv "GEMINI_API_KEY").getD "" = "" then
    (.error "GEMINI_API_KEY is not set", [])
  else
    andThenR (read_repo_files env globMatches) fun files_res =>
    andThenR (run_terraform env which runner "init") fun tf_init =>
    andThenR (run_terraform env which runner "validate") fun tf_validate =>
    andThenR (run_terraform env which runner "plan -out tf.plan") fun _tf_plan =>
    andThenR (run_terraform env which runner "show -json tf.plan") fun tf_show_json =>
    andThenR (if resOk tf_show_json then (.ok (ToolResult.run true 0 "" ""), [])
      else run_terraform env which runner "show tf.plan") fun tf_show_text =>
    andThenR (run_security_scan env which runner) fun sec =>
    andThenR (run_infracost env which runner) fun cost =>
    let parts := reviewParts files_res tf_init tf_validate tf_show_json
      tf_show_text sec cost
    let final_text := generate parts
    let wr := write_report env (get_workdir env) writeOutcome final_text
    (.ok final_text, wr.2)

/-! ### `agent/orchestrator.py` — JSON block extraction and create flow -/

/-- Membership in the Python string `"[\x7b"`. -/
def isOpenBracket (c : Char) : Bool := c = '[' || c = '\x7b'

/-- Membership in the Python string `"]\x7d"`. -/
def isCloseBracket (c : Char) : Bool := c = ']' || c = '\x7d'

/-- The scanning loop of `_extract_first_json_block` after the first opening
bracket: track the nesting depth (openers increment, closers decrement) and
return the characters up to and including the closer that brings the depth to
zero, or `none` when the text ends first. -/
def scanBlock : List Char → Nat → Option (List Char)
  | [], _ => none
  | c :: rest, depth =>
    if isOpenBracket c then (scanBlock rest (depth + 1)).map (c :: ·)
    else if isCloseBracket c then
      if depth = 1 then some [c]
      else (scanBlock rest (depth - 1)).map (c :: ·)
    else (scanBlock rest depth).map (c :: ·)

/-- `_extract_first_json_block`: empty result when the text has no opening
bracket or the depth never returns to zero; otherwise the substring from the
first opening bracket through the balancing closer, inclusive. -/
def extract_first_json_block (text : String) : String :=
  match text.data.dropWhile (fun c => !isOpenBracket c) with
  | [] => ""
  | c :: rest =>
    match scanBlock rest 1 with
    | none => ""
    | some cs => String.mk (c :: cs)

/-- JSON values as `json.loads` produces them (numbers collapsed to `Int`;
object fields are the deduplicated, insertion-ordered key/value pairs). -/
inductive Json
  | null
  | bool (b : Bool)
  | num (n : Int)
  | str (s : String)
  | arr (elems : List Json)
  | obj (fields : List (String × Json))

/-- `d.get(key)` on an object's fields. -/
def jLookup (fields : List (String × Json)) (key : String) : Option Json :=
  (fields.find? (fun kv => kv.1 = key)).map (fun kv => kv.2)

/-- Python truthiness of a JSON value (`if not path: continue`). -/
def Json.falsy : Json → Bool
  | .null => true
  | .bool b => !b
  | .num n => n == 0
  | .str s => s == ""
  | .arr l => l.isEmpty
  | .obj l => l.isEmpty

/-- What one manifest entry makes the create loop do: `.ok none` skips it
(missing or falsy path), `.ok (some (dest, content))` writes `content` to
`dest`, `.error` models the `TypeError`/`AttributeError` Python would raise
on a non-string path or content or a non-dict entry. -/
def entryAction (out_dir : String) : Json → Except String (Option (String × String))
  | .obj fields =>
    let path := (jLookup fields "path").getD .null
    let content := (jLookup fields "content").getD (.str "")
    if path.falsy then .ok none
    else
      match path with
      | .str p =>
        match content with
        | .str c => .ok (some (osPathJoin out_dir p, c))
        | _ => .error "TypeError: write() argument must be str"
      | _ => .error "TypeError: join() argument must be str"
  | _ => .error "AttributeError: object has no attribute get"

/-- The `for f in files` loop of `run_create_flow`: writes happen entry by
entry, so effects before a raising entry are kept while the exception
propagates. -/
def createLoop (out_dir : String) : List Json →
    Except String (List String) × List Effect
  | [] => (.ok [], [])
  | f :: rest =>
    match entryAction out_dir f with
    | .error e => (.error e, [])
    | .ok none => createLoop out_dir rest
    | .ok (some (dest, c)) =>
      let next := createLoop out_dir rest
      ((next.1.map fun written => dest :: written), .fsWrite dest c :: next.2)

/-- `run_create_flow` from the model's raw response text onward: extract the
first balanced block, parse it (`parse` stands for `json.loads`, with
`Except.error` as the raised parse exception's text), then materialise the
manifest.  The model call itself, the `GEMINI_API_KEY` check and output
directory creation are outside this function's parameters.  Iterating a
non-list `files` value raises unless the value is empty. -/
def run_create_flow (parse : String → Except String Json) (modelText : String)
    (out_dir : String) : Except String (List String × String) × List Effect :=
  let json_block := extract_first_json_block modelText
  if json_block = "" then (.ok ([], "Model did not return JSON."), [])
  else
    match parse json_block with
    | .error e => (.ok ([], "Failed to parse JSON: " ++ e), [])
    | .ok (.obj fields) =>
      match (jLookup fields "files").getD (.arr []) with
      | .arr entries =>
        let looped := createLoop out_dir entries
        match looped.1 with
        | .error e => (.error e, looped.2)
        | .ok written =>
          (.ok (written, "Wrote " ++ toString written.length ++ " files to "
            ++ out_dir ++ "."), looped.2)
      | .str s =>
        if s = "" then (.ok ([], "Wrote 0 files to " ++ out_dir ++ "."), [])
        else (.error "AttributeError: object has no attribute get", [])
      | .obj fs =>
        if fs.isEmpty then (.ok ([], "Wrote 0 files to " ++ out_dir ++ "."), [])
        else (.error "AttributeError: object has no attribute get", [])
      | _ => (.error "TypeError: object is not iterable", [])
    | .ok _ => (.error "AttributeError: object has no attribute get", [])

/-! ### `agent/main.py` — slug normalisation -/

/-- Lowercase ASCII letters and digits, the characters `_slugify` keeps. -/
def isAlnumLower (c : Char) : Bool :=
  ('a' ≤ c && c ≤ 'z') || ('0' ≤ c && c ≤ '9')

/-- `re.sub(r"[^a-z0-9]+", "-", text)`: replace each maximal run of other
characters with a single hyphen.  `inRun` records whether the previous
character belonged to such a run. -/
def subNonAlnumAux : List Char → Bool → List Char
  | [], _ => []
  | c :: rest, inRun =>
    if isAlnumLower c then c :: subNonAlnumAux rest false
    else if inRun then subNonAlnumAux rest true
    else '-' :: subNonAlnumAux rest true

/-- `re.sub(r"-+", "-", text)`: collapse hyphen runs. -/
def collapseHyphensAux : List Char → Bool → List Char
  | [], _ => []
  | c :: rest, prevHyphen =>
    if c = '-' then
      if prevHyphen then collapseHyphensAux rest true
      else '-' :: collapseHyphensAux rest true
    else c :: collapseHyphensAux rest false

/-- Python `.strip("-")`. -/
def stripHyphens (cs : List Char) : List Char :=
  ((cs.dropWhile (fun c => c = '-')).reverse.dropWhile (fun c => c = '-')).reverse

/-- ASCII lowering, as Python `str.lower()` acts on ASCII text. -/
def pyLower (c : Char) : Char := c.toLower

/-- `_slugify`: strip and lower, hyphenate non-alphanumeric runs, collapse
hyphen runs, strip hyphens, substitute the placeholder when empty, truncate. -/
def slugify (text : String) (max_len : Nat := 60) : String :=
  let cs := (pyStrip text.data).map pyLower
  let cs := subNonAlnumAux cs false
  let cs := collapseHyphensAux cs false
  let cs := stripHyphens cs
  let cs := if cs = [] then "generated-tf".data else cs
  String.mk (cs.take max_len)

/-! ### Shared helper lemmas and concrete configurations -/

/-- An environment with no variables set: allowlist absent, all tools allowed. -/
def envAllowAll : SysEnv := ⟨fun _ => none⟩

/-- An environment whose allowlist names only `other_tool`. -/
def envAllowOther : SysEnv :=
  ⟨fun v => if v = "TOOLS_ALLOWLIST" then some "other_tool" else none⟩

/-- An environment whose timeout variable holds `-5`. -/
def envTimeoutNeg : SysEnv :=
  ⟨fun v => if v = "TOOLS_TIMEOUT_SECONDS" then some "-5" else none⟩

/-- An environment whose allowlist variable holds only commas and spaces. -/
def envCommas : SysEnv :=
  ⟨fun v => if v = "TOOLS_ALLOWLIST" then some " , ," else none⟩

/-- A PATH on which every binary resolves. -/
def whichAll : String → Bool := fun _ => true

/-- A runner whose every process exits 0. -/
def runnerZero : List String → RunOutcome :=
  fun _ => .completed 0 "out-text" "err-text"

theorem is_tool_allowed_false_of_not_mem (env : SysEnv) (l : List String)
    (name : String) (hal : get_tools_allowlist env = some l) (h : name ∉ l) :
    is_tool_allowed env name = false := by
  unfold is_tool_allowed
  rw [hal]
  simpa using h

theorem run_terraform_denied (env : SysEnv)
    (h : is_tool_allowed env "run_terraform" = false) (which : String → Bool)
    (runner : List String → RunOutcome) (cmd : String) :
    run_terraform env which runner cmd =
      (.ok (.err "Tool not allowed: run_terraform"), []) := by
  simp [run_terraform, h]

theorem run_security_scan_denied (env : SysEnv)
    (h : is_tool_allowed env "run_security_scan" = false)
    (which : String → Bool) (runner : List String → RunOutcome) :
    run_security_scan env which runner =
      (.ok (.err "Tool not allowed: run_security_scan"), []) := by
  simp [run_security_scan, h]

theorem run_infracost_denied (env : SysEnv)
    (h : is_tool_allowed env "run_infracost" = false)
    (which : String → Bool) (runner : List String → RunOutcome) :
    run_infracost env which runner =
      (.ok (.err "Tool not allowed: run_infracost"), []) := by
  simp [run_infracost, h]

theorem read_repo_files_denied (env : SysEnv)
    (h : is_tool_allowed env "read_repo_files" = false)
    (globMatches : List FileInfo) :
    read_repo_files env globMatches =
      (.ok (.err "Tool not allowed: read_repo_files"), []) := by
  simp [read_repo_files, h]

theorem write_report_denied (env : SysEnv)
    (h : is_tool_allowed env "write_report" = false) (cwd : String)
    (writeOutcome : Except String Unit) (markdown : String) :
    write_report env cwd writeOutcome markdown =
      (.ok (.err "Tool not allowed: write_report"), []) := by
  simp [write_report, h]

/-! ### C1 -/

/-- C1: whenever the allowlist is set and does not contain an operation's tool
name, that operation returns the denial dictionary
`Failure("Tool not allowed: <name>")` and its effect list is empty: no process
is spawned and nothing is written, for every configuration of the remaining
inputs. -/
theorem gateway_denied_no_side_effects (env : SysEnv) (l : List String)
    (hal : get_tools_allowlist env = some l) (which : String → Bool)
    (runner : List String → RunOutcome) (cmd : String)
    (globMatches : List FileInfo) (cwd : String)
    (writeOutcome : Except String Unit) (markdown : String) :
    ("run_terraform" ∉ l →
      run_terraform env which runner cmd =
        (.ok (.err "Tool not allowed: run_terraform"), [])) ∧
    ("run_security_scan" ∉ l →
      run_security_scan env which runner =
        (.ok (.err "Tool not allowed: run_security_scan"), [])) ∧
    ("run_infracost" ∉ l →
      run_infracost env which runner =
        (.ok (.err "Tool not allowed: run_infracost"), [])) ∧
    ("read_repo_files" ∉ l →
      read_repo_files env globMatches =
        (.ok (.err "Tool not allowed: read_repo_files"), [])) ∧
    ("write_report" ∉ l →
      write_report env cwd writeOutcome markdown =
        (.ok (.err "Tool not allowed: write_report"), [])) := by
  refine ⟨fun h => ?_, fun h => ?_, fun h => ?_, fun h => ?_, fun h => ?_⟩
  · exact run_terraform_denied env
      (is_tool_allowed_false_of_not_mem env l _ hal h) which runner cmd
  · exact run_security_scan_denied env
      (is_tool_allowed_false_of_not_mem env l _ hal h) which runner
  · exact run_infracost_denied env
      (is_tool_allowed_false_of_not_mem env l _ hal h) which runner
  · exact read_repo_files_denied env
      (is_tool_allowed_false_of_not_mem env l _ hal h) globMatches
  · exact write_report_denied env
      (is_tool_allowed_false_of_not_mem env l _ hal h) cwd writeOutcome markdown

/-- C1 witness: under an allowlist naming only `other_tool`, each of the five
operations at concrete inputs returns its denial dictionary with no effects. -/
theorem gateway_denied_no_side_effects_witness :
    run_terraform envAllowOther whichAll runnerZero "init" =
      (.ok (.err "Tool not allowed: run_terraform"), []) ∧
    run_security_scan envAllowOther whichAll runnerZero =
      (.ok (.err "Tool not allowed: run_security_scan"), []) ∧
    run_infracost envAllowOther whichAll runnerZero =
      (.ok (.err "Tool not allowed: run_infracost"), []) ∧
    read_repo_files envAllowOther [] =
      (.ok (.err "Tool not allowed: read_repo_files"), []) ∧
    write_report envAllowOther "/work" (.ok ()) "text" =
      (.ok (.err "Tool not allowed: write_report"), []) := by
  have h := gateway_denied_no_side_effects envAllowOther ["other_tool"]
    (by rfl) whichAll runnerZero "init" [] "/work" (.ok ()) "text"
  exact ⟨h.1 (by decide), h.2.1 (by decide), h.2.2.1 (by decide),
    h.2.2.2.1 (by decide), h.2.2.2.2 (by decide)⟩

/-! ### C8 -/

/-- C8 counterexample: with `TOOLS_TIMEOUT_SECONDS=-5` the timeout resolves
to `-5`, which is not a positive integer, refuting the claim that the result
is always positive. -/
theorem get_tools_timeout_seconds_negative :
    get_tools_timeout_seconds envTimeoutNeg = -5 ∧
    ¬ (0 < get_tools_timeout_seconds envTimeoutNeg) := by
  constructor
  · rfl
  · decide

/-- C8 amended: `get_tools_timeout_seconds` never raises and always returns
an integer: `120` when the variable is absent or fails to parse as an
integer, and otherwise exactly the parsed value, which may be zero or
negative. -/
theorem get_tools_timeout_seconds_spec (env : SysEnv) :
    (env.getenv "TOOLS_TIMEOUT_SECONDS" = none →
      get_tools_timeout_seconds env = 120) ∧
    (∀ raw, env.getenv "TOOLS_TIMEOUT_SECONDS" = some raw →
      (parsePyInt raw = none → get_tools_timeout_seconds env = 120) ∧
      (∀ n, parsePyInt raw = some n → get_tools_timeout_seconds env = n)) := by
  constructor
  · intro h
    unfold get_tools_timeout_seconds
    rw [h]
    rfl
  · intro raw hraw
    constructor
    · intro hp
      unfold get_tools_timeout_seconds
      rw [hraw]
      simp [hp]
    · intro n hp
      unfold get_tools_timeout_seconds
      rw [hraw]
      simp [hp]

/-- C8 amended witness: at the concrete environment holding `-5`, the parsed
value `-5` is returned. -/
theorem get_tools_timeout_seconds_spec_witness :
    get_tools_timeout_seconds envTimeoutNeg = -5 := by
  exact ((get_tools_timeout_seconds_spec envTimeoutNeg).2 "-5" rfl).2 (-5) rfl

/-! ### C10 -/

theorem splitCommaAux_all_space (cs : List Char)
    (hcs : ∀ c ∈ cs, c = ',' ∨ isPySpace c = true) :
    ∀ acc, (∀ c ∈ acc, isPySpace c = true) →
      ∀ p ∈ splitCommaAux cs acc, ∀ c ∈ p, isPySpace c = true := by
  induction cs with
  | nil =>
    intro acc hacc p hp c hc
    simp only [splitCommaAux, List.mem_singleton] at hp
    subst hp
    exact hacc c (List.mem_reverse.mp hc)
  | cons a rest ih =>
    intro acc hacc p hp c hc
    have hrest : ∀ c ∈ rest, c = ',' ∨ isPySpace c = true :=
      fun c hc => hcs c (List.mem_cons_of_mem a hc)
    by_cases ha : a = ','
    · rw [splitCommaAux, if_pos ha] at hp
      rcases List.mem_cons.mp hp with h1 | h2
      · subst h1
        exact hacc c (List.mem_reverse.mp hc)
      · exact ih hrest [] (by simp) p h2 c hc
    · rw [splitCommaAux, if_neg ha] at hp
      have haSpace : isPySpace a = true := by
        rcases hcs a (List.mem_cons_self a rest) with h | h
        · exact absurd h ha
        · exact h
      refine ih hrest (a :: acc) ?_ p hp c hc
      intro d hd
      rcases List.mem_cons.mp hd with h1 | h2
      · subst h1; exact haSpace
      · exact hacc d h2

theorem pyStrip_all_space (cs : List Char)
    (h : ∀ c ∈ cs, isPySpace c = true) : pyStrip cs = [] := by
  unfold pyStrip
  have h1 : cs.dropWhile isPySpace = [] := by
    rw [List.dropWhile_eq_nil_iff]
    exact h
  rw [h1]
  rfl

/-- C10: a set, non-empty allowlist variable consisting only of commas and
whitespace parses to the empty list (not to the absent value), so every tool
name is disallowed and all five gateway operations are denied — the opposite
of the allow-all behaviour of an unset variable. -/
theorem allowlist_commas_whitespace_denies_all (env : SysEnv) (raw : String)
    (h1 : env.getenv "TOOLS_ALLOWLIST" = some raw) (h2 : raw ≠ "")
    (h3 : ∀ c ∈ raw.data, c = ',' ∨ isPySpace c = true) :
    get_tools_allowlist env = some [] ∧
    (∀ name, is_tool_allowed env name = false) ∧
    (∀ which runner cmd, run_terraform env which runner cmd =
      (.ok (.err "Tool not allowed: run_terraform"), [])) ∧
    (∀ which runner, run_security_scan env which runner =
      (.ok (.err "Tool not allowed: run_security_scan"), [])) ∧
    (∀ which runner, run_infracost env which runner =
      (.ok (.err "Tool not allowed: run_infracost"), [])) ∧
    (∀ globMatches, read_repo_files env globMatches =
      (.ok (.err "Tool not allowed: read_repo_files"), [])) ∧
    (∀ cwd writeOutcome markdown, write_report env cwd writeOutcome markdown =
      (.ok (.err "Tool not allowed: write_report"), [])) := by
  have hlist : get_tools_allowlist env = some [] := by
    have hpieces : ∀ p ∈ pySplitComma raw, ∀ c ∈ p, isPySpace c = true :=
      fun p hp => splitCommaAux_all_space raw.data h3 [] (by simp) p hp
    simp [get_tools_allowlist, h1, h2]
    exact fun a ha => pyStrip_all_space a (hpieces a ha)
  have hdeny : ∀ name, is_tool_allowed env name = false := by
    intro name
    unfold is_tool_allowed
    rw [hlist]
    rfl
  exact ⟨hlist, hdeny,
    fun which runner cmd => run_terraform_denied env (hdeny _) which runner cmd,
    fun which runner => run_security_scan_denied env (hdeny _) which runner,
    fun which runner => run_infracost_denied env (hdeny _) which runner,
    fun globMatches => read_repo_files_denied env (hdeny _) globMatches,
    fun cwd w m => write_report_denied env (hdeny _) cwd w m⟩

/-- C10 witness: the concrete variable value `" , ,"` yields the empty
allowlist and a concrete denial. -/
theorem allowlist_commas_whitespace_denies_all_witness :
    get_tools_allowlist envCommas = some [] ∧
    is_tool_allowed envCommas "run_terraform" = false ∧
    run_terraform envCommas whichAll runnerZero "init" =
      (.ok (.err "Tool not allowed: run_terraform"), []) := by
  have h := allowlist_commas_whitespace_denies_all envCommas " , ,"
    (by rfl) (by decide) (by decide)
  exact ⟨h.1, h.2.1 "run_terraform", h.2.2.1 whichAll runnerZero "init"⟩

/-! ### C2 -/

/-- C2: when the first whitespace token of the command is outside the closed
subcommand set, `run_terraform` spawns nothing (in every configuration) and —
when the tool is allowed and the binary resolvable — returns the
disallowed-subcommand failure; for the four flag-injected subcommands the
spawned argv carries the fixed flags ahead of the caller-supplied arguments
and a completed process yields `ok = (exit code == 0)`. -/
theorem run_terraform_subcommand_spec (env : SysEnv) (which : String → Bool)
    (runner : List String → RunOutcome) (cmd sub : String) (rest : List String)
    (hparts : pySplitWs cmd = sub :: rest) :
    (safeSubs.contains sub = false →
      (run_terraform env which runner cmd).2 = [] ∧
      (is_tool_allowed env "run_terraform" = true → which "terraform" = true →
        (run_terraform env which runner cmd).1 =
          .ok (.err ("Disallowed terraform subcommand: " ++ sub)))) ∧
    (is_tool_allowed env "run_terraform" = true → which "terraform" = true →
      (sub = "init" →
        (run_terraform env which runner cmd).2 =
          [.spawn (["terraform", "init", "-input=false"] ++ rest)] ∧
        ∀ code out errOut,
          runner (["terraform", "init", "-input=false"] ++ rest) =
            .completed code out errOut →
          (run_terraform env which runner cmd).1 =
            .ok (.run (code == 0) code out errOut)) ∧
      (sub = "plan" →
        (run_terraform env which runner cmd).2 =
          [.spawn (["terraform", "plan", "-input=false", "-no-color"] ++ rest)] ∧
        ∀ code out errOut,
          runner (["terraform", "plan", "-input=false", "-no-color"] ++ rest) =
            .completed code out errOut →
          (run_terraform env which runner cmd).1 =
            .ok (.run (code == 0) code out errOut)) ∧
      (sub = "show" →
        (run_terraform env which runner cmd).2 =
          [.spawn (["terraform", "show", "-no-color"] ++ rest)] ∧
        ∀ code out errOut,
          runner (["terraform", "show", "-no-color"] ++ rest) =
            .completed code out errOut →
          (run_terraform env which runner cmd).1 =
            .ok (.run (code == 0) code out errOut)) ∧
      (sub = "validate" →
        (run_terraform env which runner cmd).2 =
          [.spawn (["terraform", "validate", "-no-color"] ++ rest)] ∧
        ∀ code out errOut,
          runner (["terraform", "validate", "-no-color"] ++ rest) =
            .completed code out errOut →
          (run_terraform env which runner cmd).1 =
            .ok (.run (code == 0) code out errOut))) := by
  constructor
  · intro hsub
    have hnot : ¬ (sub ∈ safeSubs) := by simpa using hsub
    by_cases h1 : is_tool_allowed env "run_terraform"
    · by_cases h2 : which "terraform"
      · constructor
        · simp [run_terraform, h1, h2, hparts, hnot]
        · intro _ _
          simp [run_terraform, h1, h2, hparts, hnot]
      · constructor
        · simp [run_terraform, h1, h2, hparts]
        · intro _ h2'
          exact absurd h2' h2
    · constructor
      · simp [run_terraform, h1]
      · intro h1' _
        exact absurd h1' h1
  · intro h1 h2
    have hmi : ("init" : String) ∈ safeSubs := by decide
    have hmp : ("plan" : String) ∈ safeSubs := by decide
    have hms : ("show" : String) ∈ safeSubs := by decide
    have hmv : ("validate" : String) ∈ safeSubs := by decide
    refine ⟨fun hs => ?_, fun hs => ?_, fun hs => ?_, fun hs => ?_⟩
    · subst hs
      constructor
      · cases hr : runner ("terraform" :: "init" :: "-input=false" :: rest) <;>
          simp [run_terraform, h1, h2, hparts, hmi, hr]
      · intro code out errOut hr
        simp only [List.cons_append, List.nil_append] at hr
        simp [run_terraform, h1, h2, hparts, hmi, hr]
    · subst hs
      constructor
      · cases hr : runner
            ("terraform" :: "plan" :: "-input=false" :: "-no-color" :: rest) <;>
          simp [run_terraform, h1, h2, hparts, hmp, hr]
      · intro code out errOut hr
        simp only [List.cons_append, List.nil_append] at hr
        simp [run_terraform, h1, h2, hparts, hmp, hr]
    · subst hs
      constructor
      · cases hr : runner ("terraform" :: "show" :: "-no-color" :: rest) <;>
          simp [run_terraform, h1, h2, hparts, hms, hr]
      · intro code out errOut hr
        simp only [List.cons_append, List.nil_append] at hr
        simp [run_terraform, h1, h2, hparts, hms, hr]
    · subst hs
      constructor
      · cases hr : runner ("terraform" :: "validate" :: "-no-color" :: rest) <;>
          simp [run_terraform, h1, h2, hparts, hmv, hr]
      · intro code out errOut hr
        simp only [List.cons_append, List.nil_append] at hr
        simp [run_terraform, h1, h2, hparts, hmv, hr]

/-- C2 witness: in an allow-all environment with the binary present and a
zero-exit runner, the command `"plan -out tf.plan"` spawns the argv with the
injected flags ahead of the caller arguments and returns `ok = true`. -/
theorem run_terraform_subcommand_spec_witness :
    (run_terraform envAllowAll whichAll runnerZero "plan -out tf.plan").2 =
      [.spawn ["terraform", "plan", "-input=false", "-no-color",
        "-out", "tf.plan"]] ∧
    (run_terraform envAllowAll whichAll runnerZero "plan -out tf.plan").1 =
      .ok (.run true 0 "out-text" "err-text") := by
  have h := (run_terraform_subcommand_spec envAllowAll whichAll runnerZero
    "plan -out tf.plan" "plan" ["-out", "tf.plan"] (by rfl)).2
    (by rfl) (by rfl)
  have hp := h.2.1 rfl
  exact ⟨hp.1, hp.2 0 "out-text" "err-text" rfl⟩

/-! ### C6 -/

/-- C6: `run_security_scan` (when allowed) invokes exactly one scanner, never
both, preferring tfsec: with tfsec resolvable the only effect is the tfsec
spawn and a completed process yields `ok` exactly for exit codes 0 and 1;
with only checkov resolvable the same holds for checkov; with neither, the
reported no-scanner failure is returned without raising and without effects. -/
theorem run_security_scan_fallback_spec (env : SysEnv) (which : String → Bool)
    (runner : List String → RunOutcome)
    (hallow : is_tool_allowed env "run_security_scan" = true) :
    (which "tfsec" = true →
      (run_security_scan env which runner).2 = [.spawn tfsecArgv] ∧
      ∀ code out errOut, runner tfsecArgv = .completed code out errOut →
        (run_security_scan env which runner).1 =
          .ok (.runTool (code == 0 || code == 1) "tfsec" code out errOut)) ∧
    (which "tfsec" = false → which "checkov" = true →
      (run_security_scan env which runner).2 = [.spawn checkovArgv] ∧
      ∀ code out errOut, runner checkovArgv = .completed code out errOut →
        (run_security_scan env which runner).1 =
          .ok (.runTool (code == 0 || code == 1) "checkov" code out errOut)) ∧
    (which "tfsec" = false → which "checkov" = false →
      run_security_scan env which runner =
        (.ok (.err "Neither tfsec nor checkov found on PATH"), [])) := by
  refine ⟨fun h1 => ?_, fun h1 h2 => ?_, fun h1 h2 => ?_⟩
  · constructor
    · cases hr : runner tfsecArgv <;>
        simp [run_security_scan, hallow, h1, hr]
    · intro code out errOut hr
      simp [run_security_scan, hallow, h1, hr]
  · constructor
    · cases hr : runner checkovArgv <;>
        simp [run_security_scan, hallow, h1, h2, hr]
    · intro code out errOut hr
      simp [run_security_scan, hallow, h1, h2, hr]
  · simp [run_security_scan, hallow, h1, h2]

/-- C6 witness: with only tfsec resolvable and a process exiting 1 (issues
found), the scan spawns tfsec only and reports `ok = true`. -/
theorem run_security_scan_fallback_spec_witness :
    (run_security_scan envAllowAll (fun b => b = "tfsec")
      (fun _ => .completed 1 "issues" "")).2 = [.spawn tfsecArgv] ∧
    (run_security_scan envAllowAll (fun b => b = "tfsec")
      (fun _ => .completed 1 "issues" "")).1 =
      .ok (.runTool true "tfsec" 1 "issues" "") := by
  have h := (run_security_scan_fallback_spec envAllowAll (fun b => b = "tfsec")
    (fun _ => .completed 1 "issues" "") (by rfl)).1 (by decide)
  exact ⟨h.1, h.2 1 "issues" "" rfl⟩

/-! ### C5 -/

/-- One step of the nesting-depth count the spec describes: opening brackets
increment, closing brackets decrement, other characters leave it unchanged. -/
def bracketStep (d : Int) (c : Char) : Int :=
  if isOpenBracket c then d + 1
  else if isCloseBracket c then d - 1
  else d

/-- Nesting depth accumulated over a character list, starting from 0. -/
def bracketDepth (cs : List Char) : Int :=
  cs.foldl bracketStep 0

/-- Characterisation of `scanBlock cs d`: either no prefix of `cs` brings the
running depth (started at `d`) to zero and the scan returns `none`, or the
scan returns exactly the shortest non-empty prefix that does. -/
def ScanSpec (cs : List Char) (d : Nat) : Prop :=
  (scanBlock cs d = none ∧
    ∀ m, m ≤ cs.length → (cs.take m).foldl bracketStep (d : Int) ≠ 0) ∨
  (∃ m, 0 < m ∧ m ≤ cs.length ∧
    (cs.take m).foldl bracketStep (d : Int) = 0 ∧
    (∀ k, k < m → (cs.take k).foldl bracketStep (d : Int) ≠ 0) ∧
    scanBlock cs d = some (cs.take m))

theorem scanSpec_step (c : Char) (rest : List Char) (d d' : Nat) (hd : 0 < d)
    (hstep : bracketStep (d : Int) c = (d' : Int))
    (heq : scanBlock (c :: rest) d = (scanBlock rest d').map (c :: ·))
    (ih : ScanSpec rest d') : ScanSpec (c :: rest) d := by
  rcases ih with ⟨hnone, hall⟩ | ⟨m, hm0, hmle, hzero, hmin, hsome⟩
  · left
    constructor
    · rw [heq, hnone]
      rfl
    · intro m hm
      cases m with
      | zero =>
        simp only [List.take_zero, List.foldl_nil]
        exact_mod_cast hd.ne'
      | succ k =>
        have hk : k ≤ rest.length := by simpa using hm
        rw [List.take_succ_cons, List.foldl_cons, hstep]
        exact hall k hk
  · right
    refine ⟨m + 1, Nat.succ_pos m, by simpa using hmle, ?_, ?_, ?_⟩
    · rw [List.take_succ_cons, List.foldl_cons, hstep]
      exact hzero
    · intro k hk
      cases k with
      | zero =>
        simp only [List.take_zero, List.foldl_nil]
        exact_mod_cast hd.ne'
      | succ j =>
        rw [List.take_succ_cons, List.foldl_cons, hstep]
        exact hmin j (Nat.lt_of_succ_lt_succ hk)
    · rw [heq, hsome, List.take_succ_cons]
      rfl

theorem scanBlock_spec (cs : List Char) : ∀ (d : Nat), 0 < d → ScanSpec cs d := by
  induction cs with
  | nil =>
    intro d hd
    left
    refine ⟨rfl, ?_⟩
    intro m hm
    have hm0 : m = 0 := Nat.le_zero.mp hm
    subst hm0
    simp only [List.take_nil, List.foldl_nil]
    exact_mod_cast hd.ne'
  | cons c rest ih =>
    intro d hd
    by_cases hop : isOpenBracket c = true
    · refine scanSpec_step c rest d (d + 1) hd ?_ ?_ (ih (d + 1) (Nat.succ_pos d))
      · simp [bracketStep, hop]
      · simp [scanBlock, hop]
    · by_cases hcl : isCloseBracket c = true
      · by_cases hd1 : d = 1
        · subst hd1
          right
          refine ⟨1, Nat.one_pos, by simp, ?_, ?_, ?_⟩
          · simp [bracketStep, hop, hcl]
          · intro k hk
            have hk0 : k = 0 := Nat.lt_one_iff.mp hk
            subst hk0
            simp only [List.take_zero, List.foldl_nil]
            decide
          · simp [scanBlock, hop, hcl]
        · refine scanSpec_step c rest d (d - 1) hd ?_ ?_
            (ih (d - 1) (by omega))
          · have hcast : ((d - 1 : Nat) : Int) = (d : Int) - 1 := by omega
            simp [bracketStep, hop, hcl, hcast]
          · simp [scanBlock, hop, hcl, hd1]
      · refine scanSpec_step c rest d d hd ?_ ?_ (ih d hd)
        · simp [bracketStep, hop, hcl]
        · simp [scanBlock, hop, hcl]

theorem dropWhile_head_false (p : Char → Bool) :
    ∀ (l : List Char) c rest, l.dropWhile p = c :: rest → p c = false := by
  intro l
  induction l with
  | nil =>
    intro c rest h
    simp [List.dropWhile] at h
  | cons a t ih =>
    intro c rest h
    by_cases hp : p a
    · rw [List.dropWhile_cons, if_pos hp] at h
      exact ih c rest h
    · rw [List.dropWhile_cons, if_neg hp] at h
      cases h
      simpa using hp

/-- C5: `_extract_first_json_block` is the bracket-balance scan the spec
describes: the characters before the first opening bracket are skipped; with
no opening bracket the result is empty; from the first opening bracket on,
the result is empty exactly when no non-empty prefix of the remaining text
brings the depth (starting at 1 on the opening bracket) back to 0, and
otherwise it is precisely the shortest such prefix, ending at the closing
bracket that balances the block.  In particular the two concrete examples of
the claim hold. -/
theorem extract_first_json_block_spec :
    (∀ text : String,
      text.data.takeWhile (fun c => !isOpenBracket c) ++
        text.data.dropWhile (fun c => !isOpenBracket c) = text.data ∧
      (∀ c ∈ text.data.takeWhile (fun c => !isOpenBracket c),
        isOpenBracket c = false) ∧
      (text.data.dropWhile (fun c => !isOpenBracket c) = [] →
        extract_first_json_block text = "") ∧
      (∀ c rest, text.data.dropWhile (fun c => !isOpenBracket c) = c :: rest →
        isOpenBracket c = true ∧
        ((extract_first_json_block text = "" ∧
          ∀ m, m ≤ (c :: rest).length →
            bracketDepth ((c :: rest).take m) = 0 → m = 0) ∨
         (∃ m, 0 < m ∧ m ≤ (c :: rest).length ∧
           bracketDepth ((c :: rest).take m) = 0 ∧
           (∀ k, 0 < k → k < m → bracketDepth ((c :: rest).take k) ≠ 0) ∧
           extract_first_json_block text = String.mk ((c :: rest).take m))))) ∧
    extract_first_json_block "noise \x7b\"a\": [1,2]\x7d trailing" =
      "\x7b\"a\": [1,2]\x7d" ∧
    extract_first_json_block "\x7b \"a\": 1" = "" := by
  refine ⟨?_, by decide, by decide⟩
  intro text
  refine ⟨List.takeWhile_append_dropWhile _ _, ?_, ?_, ?_⟩
  · intro c hc
    have := List.mem_takeWhile_imp hc
    simpa using this
  · intro h
    unfold extract_first_json_block
    rw [h]
  · intro c rest htail
    have hopen : isOpenBracket c = true := by
      have := dropWhile_head_false (fun c => !isOpenBracket c) text.data c rest htail
      simpa using this
    refine ⟨hopen, ?_⟩
    have hextract : extract_first_json_block text =
        (match scanBlock rest 1 with
          | none => ""
          | some cs => String.mk (c :: cs)) := by
      unfold extract_first_json_block
      rw [htail]
    have hstep0 : bracketStep 0 c = ((1 : Nat) : Int) := by
      simp [bracketStep, hopen]
    have hdepth : ∀ k, bracketDepth ((c :: rest).take (k + 1)) =
        (rest.take k).foldl bracketStep ((1 : Nat) : Int) := by
      intro k
      rw [List.take_succ_cons]
      unfold bracketDepth
      rw [List.foldl_cons, hstep0]
    rcases scanBlock_spec rest 1 Nat.one_pos with ⟨hnone, hall⟩ |
      ⟨m, hm0, hmle, hzero, hmin, hsome⟩
    · left
      constructor
      · rw [hextract, hnone]
      · intro m hm hz
        cases m with
        | zero => rfl
        | succ k =>
          exfalso
          have hk : k ≤ rest.length := by simpa using hm
          rw [hdepth k] at hz
          exact hall k hk hz
    · right
      refine ⟨m + 1, Nat.succ_pos m, by simpa using hmle, ?_, ?_, ?_⟩
      · rw [hdepth m]
        exact hzero
      · intro k hk0 hkm
        cases k with
        | zero => exact absurd hk0 (by decide)
        | succ j =>
          rw [hdepth j]
          exact hmin j (Nat.lt_of_succ_lt_succ hkm)
      · rw [hextract, hsome, List.take_succ_cons]

/-- C5 witness: the general theorem applied at a bracket-free text forces the
empty result. -/
theorem extract_first_json_block_spec_witness :
    extract_first_json_block "no brackets at all" = "" := by
  exact (extract_first_json_block_spec.1 "no brackets at all").2.2.1 (by decide)

/-! ### C7 -/

/-- Whether one glob match survives the per-file filters of
`read_repo_files`, and if so under which key and with which content. -/
def keepFile (f : FileInfo) : Option (String × String) :=
  if f.isDir then none
  else
    match f.size with
    | .error _ => none
    | .ok n =>
      if n > 1000000 then none
      else
        match f.content with
        | .error _ => none
        | .ok raw => some (f.rel, decodeIgnore raw)

theorem readFileStep_eq_keepFile (files : List (String × String))
    (f : FileInfo) :
    readFileStep files f =
      match keepFile f with
      | none => files
      | some kv => dictInsert files kv.1 kv.2 := by
  unfold readFileStep keepFile
  by_cases hd : f.isDir
  · simp [hd]
  · cases hs : f.size with
    | error e => simp [hd]
    | ok n =>
      by_cases hn : n > 1000000
      · simp [hd, hn]
      · cases hc : f.content with
        | error e => simp [hd, hn]
        | ok raw => simp [hd, hn]

theorem keepFile_key (f : FileInfo) (kv : String × String)
    (h : keepFile f = some kv) : kv.1 = f.rel := by
  unfold keepFile at h
  by_cases hd : f.isDir
  · simp [hd] at h
  · cases hs : f.size with
    | error e => simp [hd, hs] at h
    | ok n =>
      by_cases hn : n > 1000000
      · simp [hd, hs, hn] at h
      · cases hc : f.content with
        | error e => simp [hd, hs, hn, hc] at h
        | ok raw =>
          simp [hd, hs, hn, hc] at h
          rw [← h]

theorem dictInsert_of_not_mem (d : List (String × String)) (k v : String)
    (h : ∀ kv ∈ d, kv.1 ≠ k) : dictInsert d k v = d ++ [(k, v)] := by
  unfold dictInsert
  have hany : d.any (fun kv => kv.1 = k) = false := by
    rw [List.any_eq_false]
    intro kv hkv
    simpa using h kv hkv
  simp [hany]

theorem foldl_readFileStep (l : List FileInfo) :
    ∀ acc : List (String × String),
      (∀ f ∈ l, ∀ kv ∈ acc, kv.1 ≠ f.rel) →
      (l.map FileInfo.rel).Nodup →
      l.foldl readFileStep acc = acc ++ l.filterMap keepFile := by
  induction l with
  | nil =>
    intro acc _ _
    simp
  | cons f rest ih =>
    intro acc hdisj hnodup
    rw [List.foldl_cons, readFileStep_eq_keepFile]
    have hnodup' : (rest.map FileInfo.rel).Nodup := by
      simpa using hnodup.of_cons
    cases hk : keepFile f with
    | none =>
      rw [List.filterMap_cons, hk]
      exact ih acc (fun g hg => hdisj g (List.mem_cons_of_mem f hg)) hnodup'
    | some kv =>
      have hkey : kv.1 = f.rel := keepFile_key f kv hk
      have hins : dictInsert acc kv.1 kv.2 = acc ++ [kv] := by
        rw [dictInsert_of_not_mem]
        intro kv' hkv'
        rw [hkey]
        exact hdisj f (List.mem_cons_self f rest) kv' hkv'
      dsimp only
      rw [hins]
      have hrelf : f.rel ∉ rest.map FileInfo.rel := by
        have := hnodup
        rw [List.map_cons, List.nodup_cons] at this
        exact this.1
      have hdisj' : ∀ g ∈ rest, ∀ kv' ∈ acc ++ [kv], kv'.1 ≠ g.rel := by
        intro g hg kv' hkv'
        rcases List.mem_append.mp hkv' with h1 | h2
        · exact hdisj g (List.mem_cons_of_mem f hg) kv' h1
        · have : kv' = kv := by simpa using h2
          subst this
          rw [hkey]
          intro hcontra
          exact hrelf (hcontra ▸ List.mem_map_of_mem FileInfo.rel hg)
      rw [ih (acc ++ [kv]) hdisj' hnodup', List.filterMap_cons, hk,
        List.append_assoc]
      rfl

/-- C7 counterexample: a matched regular file of admissible size whose bytes
do not strictly decode (`decodableStrict` is false) is nonetheless included
— with the undecodable positions dropped, as `errors="ignore"` prescribes —
refuting the claim that such a file is skipped. -/
theorem read_repo_files_includes_undecodable :
    decodableStrict [some 'a', none, some 'b'] = false ∧
    read_repo_files envAllowAll
      [⟨"bad.tf", false, .ok 10, .ok [some 'a', none, some 'b']⟩] =
      (.ok (.filesOk [("bad.tf", "ab")]), []) := by
  exact ⟨rfl, rfl⟩

/-- C7 amended: `read_repo_files` (when allowed, over matches with distinct
relative paths) never raises and returns exactly the matched files that are
not directories, whose size query succeeds with at most 1,000,000 bytes and
whose open/read succeeds — decoded with undecodable positions dropped rather
than skipped; every other matched file is skipped per-file without aborting
the batch. -/
theorem read_repo_files_spec (env : SysEnv) (globMatches : List FileInfo)
    (hallow : is_tool_allowed env "read_repo_files" = true)
    (hnodup : (globMatches.map FileInfo.rel).Nodup) :
    read_repo_files env globMatches =
      (.ok (.filesOk (globMatches.filterMap keepFile)), []) := by
  unfold read_repo_files
  rw [foldl_readFileStep globMatches [] (by simp) hnodup]
  simp [hallow]

/-- C7 amended witness: a directory, an oversized file, a file whose read
raises and two readable files at concrete inputs — only the readable files
appear. -/
theorem read_repo_files_spec_witness :
    read_repo_files envAllowAll
      [⟨"dir", true, .ok 0, .ok []⟩,
       ⟨"big.tf", false, .ok 2000000, .ok [some 'y']⟩,
       ⟨"broken.tf", false, .ok 5, .error "OSError"⟩,
       ⟨"a.tf", false, .ok 3, .ok [some 'x']⟩,
       ⟨"b.tf", false, .ok 3, .ok [some 'z']⟩] =
      (.ok (.filesOk [("a.tf", "x"), ("b.tf", "z")]), []) := by
  exact read_repo_files_spec envAllowAll _ (by rfl) (by decide)

/-! ### C9 -/

/-- No two adjacent characters are both hyphens. -/
def NoDoubleHyphen (cs : List Char) : Prop :=
  cs.Chain' (fun a b => ¬ (a = '-' ∧ b = '-'))

theorem subNonAlnumAux_chars : ∀ (cs : List Char) (b : Bool) (c : Char),
    c ∈ subNonAlnumAux cs b → isAlnumLower c = true ∨ c = '-' := by
  intro cs
  induction cs with
  | nil =>
    intro b c hc
    simp [subNonAlnumAux] at hc
  | cons a t ih =>
    intro b c hc
    by_cases ha : isAlnumLower a
    · simp only [subNonAlnumAux, ha, if_true] at hc
      rcases List.mem_cons.mp hc with h1 | h2
      · subst h1
        exact Or.inl ha
      · exact ih false c h2
    · simp only [subNonAlnumAux, ha, if_false, Bool.false_eq_true] at hc
      cases b with
      | true =>
        simp only [if_true] at hc
        exact ih true c hc
      | false =>
        simp only [Bool.false_eq_true, if_false] at hc
        rcases List.mem_cons.mp hc with h1 | h2
        · subst h1
          exact Or.inr rfl
        · exact ih true c h2

theorem collapseHyphensAux_subset : ∀ (cs : List Char) (b : Bool),
    collapseHyphensAux cs b ⊆ cs := by
  intro cs
  induction cs with
  | nil =>
    intro b
    simp [collapseHyphensAux]
  | cons a t ih =>
    intro b c hc
    by_cases ha : a = '-'
    · simp only [collapseHyphensAux, ha, if_true] at hc
      cases b with
      | true =>
        simp only [if_true] at hc
        exact List.mem_cons_of_mem a (ih true hc)
      | false =>
        simp only [Bool.false_eq_true, if_false] at hc
        rcases List.mem_cons.mp hc with h1 | h2
        · subst h1
          rw [ha]
          exact List.mem_cons_self _ _
        · exact List.mem_cons_of_mem a (ih true h2)
    · simp only [collapseHyphensAux, ha, if_false] at hc
      rcases List.mem_cons.mp hc with h1 | h2
      · subst h1
        exact List.mem_cons_self _ _
      · exact List.mem_cons_of_mem a (ih false h2)

theorem collapseHyphensAux_head_true : ∀ (cs : List Char) (c : Char)
    (rest : List Char), collapseHyphensAux cs true = c :: rest → c ≠ '-' := by
  intro cs
  induction cs with
  | nil =>
    intro c rest h
    simp [collapseHyphensAux] at h
  | cons a t ih =>
    intro c rest h
    by_cases ha : a = '-'
    · simp only [collapseHyphensAux, ha, if_true] at h
      exact ih c rest h
    · simp only [collapseHyphensAux, ha, if_false] at h
      rw [List.cons.injEq] at h
      rw [← h.1]
      exact ha

theorem collapseHyphensAux_noDD : ∀ (cs : List Char) (b : Bool),
    NoDoubleHyphen (collapseHyphensAux cs b) := by
  intro cs
  induction cs with
  | nil =>
    intro b
    simp [collapseHyphensAux, NoDoubleHyphen]
  | cons a t ih =>
    intro b
    by_cases ha : a = '-'
    · cases b with
      | true =>
        simpa only [collapseHyphensAux, ha, if_true] using ih true
      | false =>
        simp only [collapseHyphensAux, ha, if_true, Bool.false_eq_true,
          if_false]
        unfold NoDoubleHyphen
        rw [List.chain'_cons']
        refine ⟨?_, ih true⟩
        intro y hy
        cases hcol : collapseHyphensAux t true with
        | nil =>
          rw [hcol] at hy
          simp at hy
        | cons y0 r =>
          rw [hcol] at hy
          simp only [List.head?_cons, Option.mem_def, Option.some.injEq] at hy
          subst hy
          intro hcon
          exact collapseHyphensAux_head_true t y0 r hcol hcon.2
    · simp only [collapseHyphensAux, ha, if_false]
      unfold NoDoubleHyphen
      rw [List.chain'_cons']
      refine ⟨?_, ih false⟩
      intro y _ hcon
      exact ha hcon.1

theorem noDD_reverse (l : List Char) (h : NoDoubleHyphen l) :
    NoDoubleHyphen l.reverse := by
  unfold NoDoubleHyphen at *
  rw [List.chain'_reverse]
  exact h.imp fun a b hab hcon => hab ⟨hcon.2, hcon.1⟩

theorem noDD_stripHyphens (cs : List Char) (h : NoDoubleHyphen cs) :
    NoDoubleHyphen (stripHyphens cs) := by
  unfold stripHyphens NoDoubleHyphen at *
  refine noDD_reverse _ ?_
  exact List.Chain'.suffix (noDD_reverse _
    (List.Chain'.suffix h (List.dropWhile_suffix _)))
    (List.dropWhile_suffix _)

theorem stripHyphens_subset (cs : List Char) : stripHyphens cs ⊆ cs := by
  unfold stripHyphens
  intro c hc
  rw [List.mem_reverse] at hc
  have h1 := (List.dropWhile_suffix (fun c => c = '-')).subset hc
  rw [List.mem_reverse] at h1
  exact (List.dropWhile_suffix (fun c => c = '-')).subset h1

theorem stripHyphens_head (cs : List Char) (c : Char) (rest : List Char)
    (h : stripHyphens cs = c :: rest) : c ≠ '-' := by
  unfold stripHyphens at h
  have hpre : ((cs.dropWhile (fun c => c = '-')).reverse.dropWhile
      (fun c => c = '-')).reverse <+: cs.dropWhile (fun c => c = '-') := by
    have hsuf := List.dropWhile_suffix (l := (cs.dropWhile
      (fun c => c = '-')).reverse) (fun c => c = '-')
    have hp := List.reverse_prefix.mpr hsuf
    rwa [List.reverse_reverse] at hp
  rw [h] at hpre
  obtain ⟨t, ht⟩ := hpre
  have hAc : cs.dropWhile (fun c => c = '-') = c :: (rest ++ t) := by
    rw [← ht]
    rfl
  have := dropWhile_head_false (fun c => c = '-') cs c (rest ++ t) hAc
  simpa using this

theorem head?_take (n : Nat) (l : List Char) (hn : n ≠ 0) :
    (l.take n).head? = l.head? := by
  cases n with
  | zero => exact absurd rfl hn
  | succ m =>
    cases l with
    | nil => rfl
    | cons a t => rfl

theorem head?_of_eq_cons {L : List Char} {c : Char} {rest : List Char}
    (h : L = c :: rest) : L.head? = some c := by
  rw [h]
  rfl

/-- C9 counterexample: 59 `a`s, a punctuation character and one more letter
normalise to a 61-character slug; truncation to 60 then cuts exactly at the
hyphen, so the returned slug ends in a hyphen, refuting the no-trailing-hyphen
clause. -/
theorem slugify_trailing_hyphen :
    slugify (String.mk (List.replicate 59 'a' ++ ['!', 'b'])) =
      String.mk (List.replicate 59 'a' ++ ['-']) ∧
    (slugify (String.mk (List.replicate 59 'a' ++ ['!', 'b']))).data.getLast?
      = some '-' := by
  exact ⟨by decide, by decide⟩

/-- C9 amended: every slug consists only of lowercase alphanumerics and
hyphens, has no two consecutive hyphens, is non-empty, has length at most 60
and never starts with a hyphen; a trailing hyphen, however, can survive when
truncation to 60 characters cuts immediately after one. -/
theorem slugify_spec (text : String) :
    (∀ c ∈ (slugify text).data, isAlnumLower c = true ∨ c = '-') ∧
    NoDoubleHyphen (slugify text).data ∧
    (slugify text).data ≠ [] ∧
    (slugify text).data.length ≤ 60 ∧
    (∀ c rest, (slugify text).data = c :: rest → c ≠ '-') := by
  have hdata : (slugify text).data =
      (if stripHyphens (collapseHyphensAux
          (subNonAlnumAux ((pyStrip text.data).map pyLower) false) false) = []
        then "generated-tf".data
        else stripHyphens (collapseHyphensAux
          (subNonAlnumAux ((pyStrip text.data).map pyLower) false) false)).take
        60 := rfl
  by_cases hM : stripHyphens (collapseHyphensAux
      (subNonAlnumAux ((pyStrip text.data).map pyLower) false) false) = []
  · rw [hM, if_pos rfl] at hdata
    refine ⟨?_, ?_, ?_, ?_, ?_⟩
    · rw [hdata]
      decide
    · have hex : List.take 60 "generated-tf".data =
          ['g', 'e', 'n', 'e', 'r', 'a', 't', 'e', 'd', '-', 't', 'f'] := by
        decide
      rw [hdata, hex]
      unfold NoDoubleHyphen
      simp [List.chain'_cons]
    · rw [hdata]
      decide
    · rw [hdata]
      decide
    · intro c rest h
      have hc := head?_of_eq_cons h
      rw [hdata] at hc
      intro hcontra
      rw [hcontra] at hc
      have hne : (("generated-tf".data).take 60).head? ≠ some '-' := by decide
      exact hne hc
  · rw [if_neg hM] at hdata
    refine ⟨?_, ?_, ?_, ?_, ?_⟩
    · intro c hc
      rw [hdata] at hc
      have h1 := List.take_subset 60 _ hc
      have h2 := stripHyphens_subset _ h1
      have h3 := collapseHyphensAux_subset _ false h2
      exact subNonAlnumAux_chars _ false c h3
    · rw [hdata]
      exact List.Chain'.take
        (noDD_stripHyphens _ (collapseHyphensAux_noDD _ false)) 60
    · rw [hdata]
      cases hMc : stripHyphens (collapseHyphensAux
          (subNonAlnumAux ((pyStrip text.data).map pyLower) false) false) with
      | nil => exact absurd hMc hM
      | cons m0 mrest => simp
    · rw [hdata]
      exact List.length_take_le 60 _
    · intro c rest h
      have hc := head?_of_eq_cons h
      rw [hdata, head?_take 60 _ (by decide)] at hc
      cases hMc : stripHyphens (collapseHyphensAux
          (subNonAlnumAux ((pyStrip text.data).map pyLower) false) false) with
      | nil => exact absurd hMc hM
      | cons m0 mrest =>
        rw [hMc] at hc
        simp only [List.head?_cons, Option.some.injEq] at hc
        rw [← hc]
        exact stripHyphens_head _ m0 mrest hMc

/-- C9 amended witness: a concrete slug from the claim's example input
satisfies all the proven clauses. -/
theorem slugify_spec_witness :
    NoDoubleHyphen (slugify "Deploy a Secure S3 Bucket!!").data ∧
    (slugify "Deploy a Secure S3 Bucket!!").data ≠ [] ∧
    (slugify "Deploy a Secure S3 Bucket!!").data.length ≤ 60 := by
  have h := slugify_spec "Deploy a Secure S3 Bucket!!"
  exact ⟨h.2.1, h.2.2.1, h.2.2.2.1⟩

/-! ### C3 -/

/-- Tags of the files slot of the bundle (per-file fragments or the
could-not-read error fragment). -/
def isFilesSlotTag : FragTag → Bool
  | .file _ => true
  | .filesError => true
  | _ => false

/-- Tags of the plan slot (either show variant). -/
def isPlanTag : FragTag → Bool
  | .planJson => true
  | .planText => true
  | _ => false

/-- Tags of the security slot. -/
def isSecTag : FragTag → Bool
  | .secOk _ => true
  | .secErr => true
  | _ => false

/-- Tags of the cost slot. -/
def isCostTag : FragTag → Bool
  | .costOk => true
  | .costErr => true
  | _ => false

/-- C3 counterexample: with a successful file read returning two files (and
every tool step succeeding), the files step contributes two fragments, not
exactly one, so the bundle has seven fragments instead of six — refuting the
claim that every step contributes exactly one labelled fragment. -/
theorem reviewParts_files_step_two_fragments :
    (reviewParts (.filesOk [("a.tf", "x"), ("b.tf", "y")])
      (.run true 0 "i" "") (.run true 0 "v" "") (.run true 0 "sj" "")
      (.run true 0 "" "") (.runTool true "tfsec" 0 "s" "")
      (.run true 0 "c" "")).countP (fun fr => isFilesSlotTag fr.tag) = 2 ∧
    (reviewParts (.filesOk [("a.tf", "x"), ("b.tf", "y")])
      (.run true 0 "i" "") (.run true 0 "v" "") (.run true 0 "sj" "")
      (.run true 0 "" "") (.runTool true "tfsec" 0 "s" "")
      (.run true 0 "c" "")).length = 7 := by
  exact ⟨rfl, rfl⟩

/-- C3 amended: the bundle builder is total over all step outcomes (no early
abort), and the bundle decomposes, in order, into the files slot, one init
fragment, one validate fragment, exactly one plan fragment (the JSON show
variant when the JSON show was ok, else the text variant — never both), one
security fragment and one cost fragment.  The files slot holds one fragment
per file on success and exactly one error fragment on failure; init and
validate carry `_safe` of their result (stdout of a run, error reason of a
failure), the plan slot carries the JSON stdout or `_safe` of the text show,
and the security and cost slots carry stdout when ok and the recorded error
(empty for a run that merely exited non-ok) otherwise. -/
theorem reviewParts_bundle_spec (f i v sj st s c : ToolResult) :
    reviewParts f i v sj st s c =
      (reviewParts f i v sj st s c).filter (fun fr => isFilesSlotTag fr.tag) ++
      (reviewParts f i v sj st s c).filter (fun fr => fr.tag = FragTag.init) ++
      (reviewParts f i v sj st s c).filter
        (fun fr => fr.tag = FragTag.validate) ++
      (reviewParts f i v sj st s c).filter (fun fr => isPlanTag fr.tag) ++
      (reviewParts f i v sj st s c).filter (fun fr => isSecTag fr.tag) ++
      (reviewParts f i v sj st s c).filter (fun fr => isCostTag fr.tag) ∧
    (reviewParts f i v sj st s c).filter (fun fr => isFilesSlotTag fr.tag) =
      (if resOk f then (resFiles f).map (fun rc => ⟨.file rc.1, rc.2⟩)
       else [⟨.filesError, resError f⟩]) ∧
    (reviewParts f i v sj st s c).filter (fun fr => fr.tag = FragTag.init) =
      [⟨.init, safeVal i⟩] ∧
    (reviewParts f i v sj st s c).filter (fun fr => fr.tag = FragTag.validate) =
      [⟨.validate, safeVal v⟩] ∧
    (reviewParts f i v sj st s c).filter (fun fr => isPlanTag fr.tag) =
      [if resOk sj then ⟨.planJson, resStdout sj⟩
       else ⟨.planText, safeVal st⟩] ∧
    (reviewParts f i v sj st s c).filter (fun fr => isSecTag fr.tag) =
      [if resOk s then ⟨.secOk (resTool s), resStdout s⟩
       else ⟨.secErr, resError s⟩] ∧
    (reviewParts f i v sj st s c).filter (fun fr => isCostTag fr.tag) =
      [if resOk c then ⟨.costOk, resStdout c⟩ else ⟨.costErr, resError c⟩] := by
  have hmapAll :
      ((resFiles f).map (fun rc => (⟨.file rc.1, rc.2⟩ : Fragment))).filter
        (fun fr => isFilesSlotTag fr.tag) =
        (resFiles f).map (fun rc => (⟨.file rc.1, rc.2⟩ : Fragment)) := by
    rw [List.filter_map]
    congr 1
    rw [List.filter_eq_self]
    intro a _
    rfl
  have hmapInit :
      ((resFiles f).map (fun rc => (⟨.file rc.1, rc.2⟩ : Fragment))).filter
        (fun fr => fr.tag = FragTag.init) = [] := by
    rw [List.filter_map, List.filter_eq_nil_iff.mpr, List.map_nil]
    intro a _
    simp
  have hmapValidate :
      ((resFiles f).map (fun rc => (⟨.file rc.1, rc.2⟩ : Fragment))).filter
        (fun fr => fr.tag = FragTag.validate) = [] := by
    rw [List.filter_map, List.filter_eq_nil_iff.mpr, List.map_nil]
    intro a _
    simp
  have hmapPlan :
      ((resFiles f).map (fun rc => (⟨.file rc.1, rc.2⟩ : Fragment))).filter
        (fun fr => isPlanTag fr.tag) = [] := by
    rw [List.filter_map, List.filter_eq_nil_iff.mpr, List.map_nil]
    intro a _
    simp [isPlanTag]
  have hmapSec :
      ((resFiles f).map (fun rc => (⟨.file rc.1, rc.2⟩ : Fragment))).filter
        (fun fr => isSecTag fr.tag) = [] := by
    rw [List.filter_map, List.filter_eq_nil_iff.mpr, List.map_nil]
    intro a _
    simp [isSecTag]
  have hmapCost :
      ((resFiles f).map (fun rc => (⟨.file rc.1, rc.2⟩ : Fragment))).filter
        (fun fr => isCostTag fr.tag) = [] := by
    rw [List.filter_map, List.filter_eq_nil_iff.mpr, List.map_nil]
    intro a _
    simp [isCostTag]
  by_cases hf : resOk f <;> by_cases hsj : resOk sj <;>
    by_cases hs : resOk s <;> by_cases hc : resOk c <;>
    · simp only [isFilesSlotTag, isPlanTag, isSecTag, isCostTag]
        at hmapAll hmapPlan hmapSec hmapCost ⊢
      refine ⟨?_, ?_, ?_, ?_, ?_, ?_, ?_⟩ <;>
        simp [reviewParts, hf, hsj, hs, hc, List.filter_append, hmapAll,
          hmapInit, hmapValidate, hmapPlan, hmapSec, hmapCost]

/-! ### C4 -/

/-- Boolean success test for `Except`. -/
def exceptOk {α β : Type} : Except α β → Bool
  | .ok _ => true
  | .error _ => false

/-- The write (if any) a non-raising manifest entry produces. -/
def entryWrite (out_dir : String) (f : Json) : Option (String × String) :=
  match entryAction out_dir f with
  | .ok o => o
  | .error _ => none

theorem createLoop_ok (out_dir : String) (entries : List Json)
    (h : entries.all (fun f => exceptOk (entryAction out_dir f)) = true) :
    createLoop out_dir entries =
      (.ok ((entries.filterMap (entryWrite out_dir)).map Prod.fst),
        (entries.filterMap (entryWrite out_dir)).map
          (fun pc => .fsWrite pc.1 pc.2)) := by
  induction entries with
  | nil => simp [createLoop]
  | cons f rest ih =>
    rw [List.all_cons, Bool.and_eq_true] at h
    obtain ⟨hf, hrest⟩ := h
    cases hact : entryAction out_dir f with
    | error e =>
      rw [hact] at hf
      simp [exceptOk] at hf
    | ok o =>
      cases o with
      | none =>
        simp only [createLoop, hact]
        rw [ih hrest, List.filterMap_cons]
        simp [entryWrite, hact]
      | some pc =>
        obtain ⟨dest, cont⟩ := pc
        simp only [createLoop, hact]
        rw [ih hrest, List.filterMap_cons]
        simp [entryWrite, hact, Except.map]

/-- C4: the create flow is all-or-nothing at the manifest stage.  With no
balanced block in the model text it returns the no-JSON message and performs
no write; with a block that fails to parse it returns the distinct
parse-error message and performs no write; with a parsed object manifest
whose entries do not raise, it writes exactly the entries with a non-empty
path (an entry with an empty or missing path produces no write) and returns
those destination paths with a count summary whose count is the number of
paths written.  The final clause makes the skip rule explicit on a
string-path entry. -/
theorem run_create_flow_spec (parse : String → Except String Json)
    (modelText out_dir : String) :
    (extract_first_json_block modelText = "" →
      run_create_flow parse modelText out_dir =
        (.ok ([], "Model did not return JSON."), [])) ∧
    (∀ e, extract_first_json_block modelText ≠ "" →
      parse (extract_first_json_block modelText) = .error e →
      run_create_flow parse modelText out_dir =
        (.ok ([], "Failed to parse JSON: " ++ e), [])) ∧
    (∀ fields entries, extract_first_json_block modelText ≠ "" →
      parse (extract_first_json_block modelText) = .ok (.obj fields) →
      (jLookup fields "files").getD (.arr []) = .arr entries →
      entries.all (fun f => exceptOk (entryAction out_dir f)) = true →
      run_create_flow parse modelText out_dir =
        (.ok ((entries.filterMap (entryWrite out_dir)).map Prod.fst,
          "Wrote " ++
            toString ((entries.filterMap (entryWrite out_dir)).map
              Prod.fst).length ++ " files to " ++ out_dir ++ "."),
          (entries.filterMap (entryWrite out_dir)).map
            (fun pc => .fsWrite pc.1 pc.2))) ∧
    (∀ p cont, entryWrite out_dir
        (.obj [("path", Json.str p), ("content", Json.str cont)]) =
      (if p = "" then none else some (osPathJoin out_dir p, cont))) := by
  refine ⟨fun h => ?_, fun e hne hp => ?_,
    fun fields entries hne hp hfl hall => ?_, fun p cont => ?_⟩
  · simp [run_create_flow, h]
  · simp [run_create_flow, hne, hp]
  · have hloop := createLoop_ok out_dir entries hall
    simp [run_create_flow, hne, hp, hfl, hloop]
  · by_cases hp : p = "" <;>
      simp [entryWrite, entryAction, jLookup, Json.falsy, hp]

/-- A fixed model-output parse used to exercise the create flow: a manifest
with one real file and one empty-path entry. -/
def parseDemo : String → Except String Json := fun _ =>
  .ok (.obj [("files", .arr [
    .obj [("path", .str "main.tf"), ("content", .str "hcl")],
    .obj [("path", .str "")]])])

/-- C4 witness: on a concrete response containing an empty object block, the
manifest's non-empty-path entry is written (and only it), and the count
summary reports one file. -/
theorem run_create_flow_spec_witness :
    run_create_flow parseDemo "\x7b\x7d" "out" =
      (.ok (["out/main.tf"], "Wrote 1 files to out."),
        [.fsWrite "out/main.tf" "hcl"]) := by
  have h := (run_create_flow_spec parseDemo "\x7b\x7d" "out").2.2.1
  have h2 := h
    [("files", .arr [
      .obj [("path", .str "main.tf"), ("content", .str "hcl")],
      .obj [("path", .str "")]])]
    [.obj [("path", .str "main.tf"), ("content", .str "hcl")],
      .obj [("path", .str "")]]
    (by decide) rfl rfl rfl
  exact h2.trans (by rfl)

end TfAgent